import Mathlib

/-!
Verification of the Facebook_backend repository core: the dedup-aware ad
persistence layer (src/db.ts), the mission supervisor (server.js), the
recurring-job scheduler (src/scheduler.ts, shipped as unnamed/part_009) and
the extraction worker (src/scraper.ts).  Each definition is a shallow
embedding of the corresponding source function; JS numbers are modelled as
Nat where the source only ever holds non-negative integers, Date values as
Nat milliseconds, and the MongoDB collections as in-memory lists.
-/

namespace FB

/-! ## String helpers (model of JS String.prototype.includes) -/

/-- Does the character list s start with the character list p? -/
def startsWithList : List Char → List Char → Bool
  | _, [] => true
  | [], _ :: _ => false
  | a :: s, b :: p => a == b && startsWithList s p

/-- Does the character list s contain p as a contiguous sublist? -/
def containsList : List Char → List Char → Bool
  | [], pat => pat.isEmpty
  | s@(_ :: t), pat => startsWithList s pat || containsList t pat

/-- Model of JS s.includes(pat). -/
def strContains (s pat : String) : Bool :=
  containsList s.data pat.data

/-- Number of lines in which the given tag occurs (the supervisor greps
line-by-line with includes). -/
def countTag (lines : List String) (pat : String) : Nat :=
  lines.countP (fun l => strContains l pat)

/-! ## src/db.ts : the Ad collection and saveAd -/

/-- One persisted Ad document (the fields saveAd writes). -/
structure AdRecord where
  userId : Option String
  advertiser_name : String
  ad_description : String
  keyword : String
  phone : Option String
  address : Option String
  ad_start_date : Option Nat
  deriving DecidableEq, Repr

/-- The adData document saveAd builds before persisting. -/
def mkAd (userId : Option String) (advertiser description keyword : String)
    (phone address : Option String) (startDate : Option Nat) : AdRecord :=
  ⟨userId, advertiser, description, keyword, phone, address, startDate⟩

/-- The findOne filter built by saveAd: advertiser_name and ad_description
always; userId only when the caller passed one (userId != null). -/
def adMatchesFilter (userId : Option String) (advertiser description : String)
    (r : AdRecord) : Bool :=
  r.advertiser_name == advertiser && r.ad_description == description &&
    (match userId with
     | none => true
     | some u => r.userId == some u)

/-- db.ts saveAd: returns false (duplicate) when a record matching the
filter exists, otherwise persists a new record (carrying userId only when
one was passed) and returns true.  The catch-all that maps storage errors
to false is not modelled: the in-memory store cannot fail. -/
def saveAd (db : List AdRecord) (advertiser description keyword : String)
    (phone address : Option String) (startDate : Option Nat)
    (userId : Option String) : Bool × List AdRecord :=
  if db.any (adMatchesFilter userId advertiser description) then
    (false, db)
  else
    (true, db ++ [mkAd userId advertiser description keyword phone address startDate])

/-- Two records clash when they belong to the same concrete owner and agree
on the dedup key (advertiser, description). -/
def keyClash (a b : AdRecord) : Bool :=
  a.userId.isSome && a.userId == b.userId &&
    a.advertiser_name == b.advertiser_name && a.ad_description == b.ad_description

/-- No two persisted records share a dedup key for the same owner. -/
def dedupOK : List AdRecord → Bool
  | [] => true
  | r :: rest => rest.all (fun s => !(keyClash r s)) && dedupOK rest

theorem dedupOK_append_singleton (db : List AdRecord) (r : AdRecord)
    (h : dedupOK db = true) (hr : ∀ s ∈ db, keyClash s r = false) :
    dedupOK (db ++ [r]) = true := by
  induction db with
  | nil => simp [dedupOK]
  | cons a t ih =>
      simp only [dedupOK, Bool.and_eq_true, List.all_eq_true] at h ⊢
      refine ⟨?_, ih h.2 (fun s hs => hr s (List.mem_cons_of_mem a hs))⟩
      intro s hs
      rcases List.mem_append.mp hs with hmem | hmem
      · exact h.1 s hmem
      · have hsr : s = r := by simpa using hmem
        subst hsr
        simp [hr a (List.mem_cons_self a t)]

/-- A record clashing with the record saveAd would insert for owner u
matches saveAd's duplicate filter for that owner. -/
theorem keyClash_inserted_implies_match (u advertiser description keyword : String)
    (phone address : Option String) (startDate : Option Nat) (s : AdRecord)
    (h : keyClash s (mkAd (some u) advertiser description keyword phone address startDate) = true) :
    adMatchesFilter (some u) advertiser description s = true := by
  simp only [keyClash, mkAd, Bool.and_eq_true, beq_iff_eq] at h
  obtain ⟨⟨⟨_, huid⟩, hadv⟩, hdesc⟩ := h
  simp only [adMatchesFilter, Bool.and_eq_true, beq_iff_eq]
  exact ⟨⟨hadv, hdesc⟩, by simp [huid]⟩

/-- C1 invariant part: saveAd preserves the per-owner dedup invariant, for
any arguments (owner present or absent). -/
theorem saveAd_preserves_dedupOK (db : List AdRecord)
    (advertiser description keyword : String) (phone address : Option String)
    (startDate : Option Nat) (userId : Option String) (h : dedupOK db = true) :
    dedupOK (saveAd db advertiser description keyword phone address startDate userId).2 = true := by
  unfold saveAd
  by_cases hdup : db.any (adMatchesFilter userId advertiser description) = true
  · simp [hdup, h]
  · rw [if_neg hdup]
    refine dedupOK_append_singleton db _ h ?_
    intro s hs
    cases userId with
    | none =>
        -- the inserted record has no owner, so it clashes with nothing
        cases hsu : s.userId with
        | none => simp [keyClash, mkAd, hsu]
        | some v => simp [keyClash, mkAd, hsu]
    | some u =>
        by_contra hc
        have hc' : keyClash s (mkAd (some u) advertiser description keyword phone address startDate)
            = true := by
          revert hc
          cases keyClash s (mkAd (some u) advertiser description keyword phone address startDate) <;>
            simp
        have := keyClash_inserted_implies_match u advertiser description keyword
          phone address startDate s hc'
        exact hdup (List.any_eq_true.mpr ⟨s, hs, this⟩)

/-- C1: For every owner and every (advertiser, description) pair: after a
saveAd call that returned true, a second saveAd with the same advertiser,
description and owner returns false and leaves the store unchanged; and
saveAd preserves the invariant that no two persisted records for the same
owner share the dedup key. -/
theorem C1_saveAd_idempotent_on_dedup_key
    (db : List AdRecord) (advertiser description keyword : String)
    (phone address : Option String) (startDate : Option Nat) (u : String)
    (keyword2 : String) (phone2 address2 : Option String) (startDate2 : Option Nat)
    (h : (saveAd db advertiser description keyword phone address startDate (some u)).1 = true) :
    (saveAd (saveAd db advertiser description keyword phone address startDate (some u)).2
        advertiser description keyword2 phone2 address2 startDate2 (some u)) =
      (false, (saveAd db advertiser description keyword phone address startDate (some u)).2) ∧
    (dedupOK db = true →
      dedupOK (saveAd db advertiser description keyword phone address startDate (some u)).2 = true) := by
  constructor
  · have hdup : db.any (adMatchesFilter (some u) advertiser description) = false := by
      by_contra hx
      have hx' : db.any (adMatchesFilter (some u) advertiser description) = true := by
        revert hx
        cases db.any (adMatchesFilter (some u) advertiser description) <;> simp
      unfold saveAd at h
      rw [if_pos hx'] at h
      exact absurd h (by simp)
    have h2 : (saveAd db advertiser description keyword phone address startDate (some u)).2 =
        db ++ [mkAd (some u) advertiser description keyword phone address startDate] := by
      unfold saveAd
      rw [if_neg (by simp [hdup])]
    rw [h2]
    have hins : adMatchesFilter (some u) advertiser description
        (mkAd (some u) advertiser description keyword phone address startDate) = true := by
      simp [adMatchesFilter, mkAd]
    have hany : (db ++ [mkAd (some u) advertiser description keyword phone address startDate]).any
        (adMatchesFilter (some u) advertiser description) = true := by
      exact List.any_eq_true.mpr ⟨_, by simp, hins⟩
    unfold saveAd
    rw [if_pos hany]
  · intro hinv
    exact saveAd_preserves_dedupOK db advertiser description keyword phone address startDate (some u) hinv

/-- Witness for C1 at a concrete store and owner. -/
theorem C1_witness :
    (saveAd [] "Acme" "best shoes" "shoes" none none none (some "u1")).1 = true ∧
    (saveAd (saveAd [] "Acme" "best shoes" "shoes" none none none (some "u1")).2
        "Acme" "best shoes" "other" none none none (some "u1")) =
      (false, (saveAd [] "Acme" "best shoes" "shoes" none none none (some "u1")).2) := by
  refine ⟨by decide, ?_⟩
  exact (C1_saveAd_idempotent_on_dedup_key [] "Acme" "best shoes" "shoes" none none none
    "u1" "other" none none none (by decide)).1

/-- C10: When saveAd is called with no owner id, the duplicate filter omits
the owner field entirely: the call reports a duplicate whenever any record
with the same advertiser and description exists for any owner, and a record
it persists carries no owner id. -/
theorem C10_saveAd_global_dedup_without_owner
    (db : List AdRecord) (advertiser description keyword : String)
    (phone address : Option String) (startDate : Option Nat) :
    (db.any (fun r => r.advertiser_name == advertiser &&
        r.ad_description == description) = true →
      saveAd db advertiser description keyword phone address startDate none = (false, db)) ∧
    (db.any (fun r => r.advertiser_name == advertiser &&
        r.ad_description == description) = false →
      saveAd db advertiser description keyword phone address startDate none =
        (true, db ++ [mkAd none advertiser description keyword phone address startDate])) := by
  have hpt : ∀ r, adMatchesFilter none advertiser description r =
      (r.advertiser_name == advertiser && r.ad_description == description) := by
    intro r
    simp [adMatchesFilter]
  have hfilters : db.any (adMatchesFilter none advertiser description) =
      db.any (fun r => r.advertiser_name == advertiser &&
        r.ad_description == description) := by
    rw [funext hpt]
  constructor
  · intro h
    unfold saveAd
    rw [hfilters, h]
    simp
  · intro h
    unfold saveAd
    rw [hfilters, h]
    simp

/-- Witness for C10: a record saved by owner u1 makes an ownerless save a
duplicate; an ownerless save into an empty store persists with no owner. -/
theorem C10_witness :
    saveAd [mkAd (some "u1") "Acme" "best shoes" "shoes" none none none]
        "Acme" "best shoes" "shoes" none none none none =
      (false, [mkAd (some "u1") "Acme" "best shoes" "shoes" none none none]) ∧
    saveAd [] "Acme" "best shoes" "shoes" none none none none =
      (true, [mkAd none "Acme" "best shoes" "shoes" none none none]) := by
  constructor
  · exact (C10_saveAd_global_dedup_without_owner _ "Acme" "best shoes" "shoes"
      none none none).1 (by decide)
  · have := (C10_saveAd_global_dedup_without_owner [] "Acme" "best shoes" "shoes"
      none none none).2 (by decide)
    simpa using this

/-! ## Mission records (db.ts missionSchema) and the server.js supervisor -/

inductive MissionStatus where
  | running
  | completed
  | failed
  | stopped
  deriving DecidableEq, Repr

/-- The Mission fields the supervisor and worker write.  endTime is a Nat
timestamp; error the failure message recorded by savePartialResults. -/
structure MissionRec where
  status : MissionStatus
  adsFound : Nat
  newAds : Nat
  duplicatesSkipped : Nat
  adsProcessed : Nat
  endTime : Option Nat
  error : Option String
  deriving DecidableEq, Repr

/-- A freshly created mission: status running, all counters at their schema
defaults of 0. -/
def newMission : MissionRec :=
  ⟨.running, 0, 0, 0, 0, none, none⟩

/-- server.js stdout line handler (POST /api/scrape): one complete line
yields inc.newAds = 1 and inc.adsFound = 1 when it includes NEW AD, and
inc.duplicatesSkipped = 1 when it includes DUPLICATE; the $inc update is
applied to the persisted Mission document. -/
def applyLine (m : MissionRec) (line : String) : MissionRec :=
  let m := if strContains line "NEW AD" then
    { m with newAds := m.newAds + 1, adsFound := m.adsFound + 1 } else m
  if strContains line "DUPLICATE" then
    { m with duplicatesSkipped := m.duplicatesSkipped + 1 } else m

/-- The persisted Mission document after the supervisor has consumed a
sequence of complete output lines. -/
def processLines (m : MissionRec) (lines : List String) : MissionRec :=
  lines.foldl applyLine m

/-- The structured trailing summary the supervisor looks for in the worker
output, tagged MISSION_RESULT_JSON.  A missing field of the parsed JSON is
read back as 0 through the (result.x or 0) coercions, so fields are Nat; a
chunk with no summary, or one whose JSON fails to parse, is none. -/
structure Summary where
  found : Nat
  saved : Nat
  duplicates : Nat
  processed : Nat
  deriving DecidableEq, Repr

/-- server.js checkFinalResult: when a MISSION_RESULT_JSON summary parses,
the in-memory mission record (not the persisted document) gets
adsFound = max(adsFound or 0, saved or 0) and likewise newAds; parse
failures are ignored. -/
def checkFinalResult (inMemory : MissionRec) (summary : Option Summary) : MissionRec :=
  match summary with
  | none => inMemory
  | some s =>
      { inMemory with adsFound := max inMemory.adsFound s.saved,
                      newAds := max inMemory.newAds s.saved }

/-- server.js close handler status mapping:
code === 0 gives completed, code === null gives stopped, else failed. -/
def serverFinalStatus (code : Option Int) : MissionStatus :=
  if code = some 0 then .completed
  else if code = none then .stopped
  else .failed

/-- server.js close handler: persists only status, endTime and updatedAt
with a $set; the counters reconciled by checkFinalResult live on the
in-memory record and are not part of this write. -/
def serverCloseFinalize (persisted : MissionRec) (code : Option Int) (now : Nat) :
    MissionRec :=
  { persisted with status := serverFinalStatus code, endTime := some now }

/-! ## The scheduler service (unnamed/part_009, src/scheduler.ts) -/

/-- Character-level model of cronExpression.replace over the pattern of one
or more stars: each maximal run of stars becomes a star followed by a
space.  The Bool argument records whether the previous character was part
of a star run. -/
def starExpandAux : Bool → List Char → List Char
  | _, [] => []
  | inStar, '*' :: rest =>
      if inStar then starExpandAux true rest
      else '*' :: ' ' :: starExpandAux true rest
  | _, c :: rest => c :: starExpandAux false rest

/-- Whitespace trim at both ends, the effect of JS String.prototype.trim. -/
def trimList (l : List Char) : List Char :=
  ((l.dropWhile Char.isWhitespace).reverse.dropWhile Char.isWhitespace).reverse

/-- getNextRunTime's normalizedCron: collapse star runs, then trim. -/
def normalizeCron (s : String) : String :=
  String.mk (trimList (starExpandAux false s.data))

def minuteMs : Nat := 60000
def hourMs : Nat := 3600000
def dayMs : Nat := 86400000

/-- Midnight at the start of the day containing t (setHours(0,0,0,0)). -/
def startOfDay (t : Nat) : Nat := t / dayMs * dayMs

/-- JS Date.getDay: 0 = Sunday.  The Unix epoch fell on a Thursday (4). -/
def dayOfWeek (t : Nat) : Nat := (t / dayMs + 4) % 7

/-- One slash-interval minute branch condition of getNextRunTime: the raw
expression, its space-free spelling, or its normalized form matches every-k
minutes. -/
def cronMinuteCond (k : String) (e : String) : Bool :=
  e == ("*/" ++ k ++ " * * * *") || e == ("*/" ++ k ++ "*****") ||
    normalizeCron e == ("*/" ++ k ++ " * * * *")

/-- SchedulerService.getNextRunTime: matches the hand-listed cron patterns
and adds the corresponding interval to now; the two midnight patterns jump
to the next local midnight (setDate + setHours(0,0,0,0)); every unknown
pattern defaults to one hour from now. -/
def getNextRunTime (cronExpression : String) (now : Nat) : Nat :=
  if cronMinuteCond "2" cronExpression then now + 2 * minuteMs
  else if cronMinuteCond "3" cronExpression then now + 3 * minuteMs
  else if cronMinuteCond "5" cronExpression then now + 5 * minuteMs
  else if cronMinuteCond "10" cronExpression then now + 10 * minuteMs
  else if cronMinuteCond "15" cronExpression then now + 15 * minuteMs
  else if cronMinuteCond "30" cronExpression then now + 30 * minuteMs
  else if cronExpression == "0 */1 * * *" then now + hourMs
  else if cronExpression == "0 */6 * * *" then now + 6 * hourMs
  else if cronExpression == "0 */12 * * *" then now + 12 * hourMs
  else if cronExpression == "0 0 * * *" then startOfDay now + dayMs
  else if cronExpression == "0 0 * * 0" then
    startOfDay now + (7 - dayOfWeek now) * dayMs
  else now + hourMs

/-- True exactly when getNextRunTime recognizes the expression as one of
its hand-listed patterns rather than falling through to the default. -/
def cronRecognized (e : String) : Bool :=
  cronMinuteCond "2" e || cronMinuteCond "3" e || cronMinuteCond "5" e ||
  cronMinuteCond "10" e || cronMinuteCond "15" e || cronMinuteCond "30" e ||
  e == "0 */1 * * *" || e == "0 */6 * * *" || e == "0 */12 * * *" ||
  e == "0 0 * * *" || e == "0 0 * * 0"

/-- The Scheduler document fields updated per execution. -/
structure SchedulerRec where
  lastRun : Option Nat
  nextRun : Option Nat
  totalRuns : Nat
  successfulRuns : Nat
  failedRuns : Nat
  deriving DecidableEq, Repr

/-- executeScrapingJob close handler update of the Scheduler document:
lastRun and nextRun are set and totalRuns always incremented; the run
counts as successful exactly when the worker exited 0 without hitting the
scheduler-level timeout. -/
def schedulerCloseUpdate (s : SchedulerRec) (cronExpression : String)
    (code : Option Int) (isTimeout : Bool) (now : Nat) : SchedulerRec :=
  { s with lastRun := some now,
           nextRun := some (getNextRunTime cronExpression now),
           totalRuns := s.totalRuns + 1,
           successfulRuns := s.successfulRuns +
             (if code = some 0 ∧ isTimeout = false then 1 else 0),
           failedRuns := s.failedRuns +
             (if code ≠ some 0 ∨ isTimeout = true then 1 else 0) }

/-- executeScrapingJobWithRetry after exhausting all retries: records a
failed run and still advances nextRun, using the (unrecognized, four-field)
expression star-slash-three which falls to getNextRunTime's default. -/
def schedulerRetryExhaustedUpdate (s : SchedulerRec) (now : Nat) : SchedulerRec :=
  { s with lastRun := some now,
           nextRun := some (getNextRunTime "*/3 * * *" now),
           totalRuns := s.totalRuns + 1,
           failedRuns := s.failedRuns + 1 }

/-- Scheduled-path terminal status (executeScrapingJob close handler): a
timed-out job is failed regardless of exit code, otherwise exit code 0 is
completed and anything else, including a null code from a kill, is failed. -/
def schedFinalStatus (isTimeout : Bool) (code : Option Int) : MissionStatus :=
  if isTimeout then .failed
  else if code = some 0 then .completed
  else .failed

/-- Maximal leading digit run of a character list. -/
def digitRun : List Char → List Char × List Char
  | [] => ([], [])
  | c :: rest =>
      if c.isDigit then
        let (ds, r) := digitRun rest
        (c :: ds, r)
      else ([], c :: rest)

/-- Numeric value of a digit list (how parseInt reads a digit capture). -/
def natOfDigits (ds : List Char) : Nat :=
  ds.foldl (fun a c => a * 10 + (c.toNat - 48)) 0

/-- One attempt of the scheduled stdout regex NEW AD bracket digits slash
plus bracket at the head of the list: literal NEW AD and opening bracket,
one or more digits, then a slash, a plus sign and the closing bracket. -/
def matchNewAdAt (s : List Char) : Option Nat :=
  if startsWithList s "NEW AD [".data then
    let rest := s.drop 8
    let (ds, r) := digitRun rest
    if ds.isEmpty then none
    else if startsWithList r "/+]".data then some (natOfDigits ds)
    else none
  else none

/-- Leftmost match of the scheduled stdout progress regex in a chunk. -/
def matchNewAdProgress : List Char → Option Nat
  | [] => none
  | s@(_ :: t) =>
      match matchNewAdAt s with
      | some k => some k
      | none => matchNewAdProgress t

/-- Scheduled-path stdout handler: on a regex match, adsFound is assigned
parseInt of the second capture, which is the literal plus sign, so NaN
leaves it unchanged through the or-else; newAds is assigned the first
capture unless it parses to the falsy 0. -/
def schedStdoutUpdate (m : MissionRec) (chunk : String) : MissionRec :=
  match matchNewAdProgress chunk.data with
  | none => m
  | some k => { m with newAds := if k = 0 then m.newAds else k }

/-- Scheduled-path close handler on the Mission document: a timed-out run
is marked failed immediately; a parsed summary overwrites all four counters
with the summary values; endTime is then set and, when not timed out, the
status is derived from the exit code.  A chunk with no parsable summary
(none) leaves the counters untouched but finalization still happens. -/
def schedCloseUpdate (m : MissionRec) (summary : Option Summary)
    (isTimeout : Bool) (code : Option Int) (now : Nat) : MissionRec :=
  let m := if isTimeout then { m with status := .failed, endTime := some now } else m
  let m := match summary with
    | some s => { m with adsFound := s.found, newAds := s.saved,
                         duplicatesSkipped := s.duplicates,
                         adsProcessed := s.processed }
    | none => m
  let m := { m with endTime := some now }
  if isTimeout then m
  else { m with status := if code = some 0 then .completed else .failed }

theorem lt_startOfDay_add_day (now : Nat) : now < startOfDay now + dayMs := by
  have h1 := Nat.div_add_mod now dayMs
  have h2 : now % dayMs < dayMs := Nat.mod_lt now (by decide)
  simp only [startOfDay, dayMs] at *
  omega

theorem lt_startOfDay_add_week_remainder (now : Nat) :
    now < startOfDay now + (7 - dayOfWeek now) * dayMs := by
  have h1 := lt_startOfDay_add_day now
  have h2 : dayOfWeek now < 7 := Nat.mod_lt _ (by decide)
  have h3 : dayMs ≤ (7 - dayOfWeek now) * dayMs :=
    Nat.le_mul_of_pos_left dayMs (by omega)
  omega

theorem lt_ite (now a b : Nat) (c : Prop) [inst : Decidable c]
    (ha : now < a) (hb : now < b) : now < (if c then a else b) := by
  by_cases hc : c
  · rw [if_pos hc]; exact ha
  · rw [if_neg hc]; exact hb

/-- getNextRunTime always returns a strictly later time than now. -/
theorem getNextRunTime_gt (e : String) (now : Nat) :
    now < getNextRunTime e now := by
  unfold getNextRunTime
  exact lt_ite _ _ _ _ (Nat.lt_add_of_pos_right (by decide))
    (lt_ite _ _ _ _ (Nat.lt_add_of_pos_right (by decide))
    (lt_ite _ _ _ _ (Nat.lt_add_of_pos_right (by decide))
    (lt_ite _ _ _ _ (Nat.lt_add_of_pos_right (by decide))
    (lt_ite _ _ _ _ (Nat.lt_add_of_pos_right (by decide))
    (lt_ite _ _ _ _ (Nat.lt_add_of_pos_right (by decide))
    (lt_ite _ _ _ _ (Nat.lt_add_of_pos_right (by decide))
    (lt_ite _ _ _ _ (Nat.lt_add_of_pos_right (by decide))
    (lt_ite _ _ _ _ (Nat.lt_add_of_pos_right (by decide))
    (lt_ite _ _ _ _ (lt_startOfDay_add_day now)
    (lt_ite _ _ _ _ (lt_startOfDay_add_week_remainder now)
      (Nat.lt_add_of_pos_right (by decide))))))))))))

/-- C9: the scheduler's next-run computation returns a time strictly later
than the moment of computation for every cron expression, and every
expression it does not recognize defaults to exactly one hour in the
future. -/
theorem C9_getNextRunTime_future (e : String) (now : Nat) :
    now < getNextRunTime e now ∧
    (cronRecognized e = false → getNextRunTime e now = now + hourMs) := by
  refine ⟨getNextRunTime_gt e now, ?_⟩
  intro h
  have c2 : cronMinuteCond "2" e = false := by
    cases hc : cronMinuteCond "2" e
    · rfl
    · exfalso; unfold cronRecognized at h; rw [hc] at h; simp at h
  have c3 : cronMinuteCond "3" e = false := by
    cases hc : cronMinuteCond "3" e
    · rfl
    · exfalso; unfold cronRecognized at h; rw [hc] at h; simp at h
  have c5 : cronMinuteCond "5" e = false := by
    cases hc : cronMinuteCond "5" e
    · rfl
    · exfalso; unfold cronRecognized at h; rw [hc] at h; simp at h
  have c10 : cronMinuteCond "10" e = false := by
    cases hc : cronMinuteCond "10" e
    · rfl
    · exfalso; unfold cronRecognized at h; rw [hc] at h; simp at h
  have c15 : cronMinuteCond "15" e = false := by
    cases hc : cronMinuteCond "15" e
    · rfl
    · exfalso; unfold cronRecognized at h; rw [hc] at h; simp at h
  have c30 : cronMinuteCond "30" e = false := by
    cases hc : cronMinuteCond "30" e
    · rfl
    · exfalso; unfold cronRecognized at h; rw [hc] at h; simp at h
  have e1 : (e == "0 */1 * * *") = false := by
    cases hc : (e == "0 */1 * * *")
    · rfl
    · exfalso; unfold cronRecognized at h; rw [hc] at h; simp at h
  have e6 : (e == "0 */6 * * *") = false := by
    cases hc : (e == "0 */6 * * *")
    · rfl
    · exfalso; unfold cronRecognized at h; rw [hc] at h; simp at h
  have e12 : (e == "0 */12 * * *") = false := by
    cases hc : (e == "0 */12 * * *")
    · rfl
    · exfalso; unfold cronRecognized at h; rw [hc] at h; simp at h
  have ed : (e == "0 0 * * *") = false := by
    cases hc : (e == "0 0 * * *")
    · rfl
    · exfalso; unfold cronRecognized at h; rw [hc] at h; simp at h
  have ew : (e == "0 0 * * 0") = false := by
    cases hc : (e == "0 0 * * 0")
    · rfl
    · exfalso; unfold cronRecognized at h; rw [hc] at h; simp at h
  unfold getNextRunTime
  rw [if_neg (by simp [c2]), if_neg (by simp [c3]), if_neg (by simp [c5]),
    if_neg (by simp [c10]), if_neg (by simp [c15]), if_neg (by simp [c30]),
    if_neg (by simp [e1]), if_neg (by simp [e6]), if_neg (by simp [e12]),
    if_neg (by simp [ed]), if_neg (by simp [ew])]

/-- Witness for C9: an arbitrary five-field expression is unrecognized and
falls to the one-hour default, strictly in the future. -/
theorem C9_witness :
    getNextRunTime "1 2 3 4 5" 1000 = 1000 + hourMs ∧
    1000 < getNextRunTime "1 2 3 4 5" 1000 := by
  refine ⟨(C9_getNextRunTime_future "1 2 3 4 5" 1000).2 (by decide),
    (C9_getNextRunTime_future "1 2 3 4 5" 1000).1⟩

/-- C2: after any scheduler execution attempt, both worker-exit
finalization (any exit code, timeout or not) and retry exhaustion update
lastRun and nextRun, and the recomputed nextRun is strictly greater than
the written lastRun, so the schedule never stalls. -/
theorem C2_scheduler_nextRun_after_lastRun (s : SchedulerRec)
    (cronExpression : String) (code : Option Int) (isTimeout : Bool) (now : Nat) :
    ((schedulerCloseUpdate s cronExpression code isTimeout now).lastRun = some now ∧
     (schedulerCloseUpdate s cronExpression code isTimeout now).nextRun =
       some (getNextRunTime cronExpression now) ∧
     now < getNextRunTime cronExpression now) ∧
    ((schedulerRetryExhaustedUpdate s now).lastRun = some now ∧
     (schedulerRetryExhaustedUpdate s now).nextRun =
       some (getNextRunTime "*/3 * * *" now) ∧
     now < getNextRunTime "*/3 * * *" now) := by
  exact ⟨⟨rfl, rfl, getNextRunTime_gt _ now⟩, ⟨rfl, rfl, getNextRunTime_gt _ now⟩⟩

/-- C3 counterexample: the on-demand supervisor maps an explicit
termination (exit code null) to stopped, but the scheduled-job close
handler finalizes the same disposition as failed, so the claimed mapping
does not hold in both paths. -/
theorem C3_counterexample :
    serverFinalStatus none = .stopped ∧
    schedFinalStatus false none = .failed ∧
    MissionStatus.failed ≠ MissionStatus.stopped := by
  refine ⟨rfl, rfl, by decide⟩

/-- C3 amended: exit dispositions map to terminal statuses as follows.  In
the on-demand path: exit code 0 becomes completed, a null code from an
explicit termination becomes stopped, any other code becomes failed.  In
the scheduled path: without a scheduler timeout, exit code 0 becomes
completed and every other disposition, including a null code, becomes
failed; with a timeout the mission is failed regardless of the code. -/
theorem C3_amended_exit_disposition_mapping :
    serverFinalStatus (some 0) = .completed ∧
    serverFinalStatus none = .stopped ∧
    (∀ c : Int, c ≠ 0 → serverFinalStatus (some c) = .failed) ∧
    schedFinalStatus false (some 0) = .completed ∧
    (∀ c : Option Int, c ≠ some 0 → schedFinalStatus false c = .failed) ∧
    (∀ c : Option Int, schedFinalStatus true c = .failed) := by
  refine ⟨rfl, rfl, ?_, rfl, ?_, ?_⟩
  · intro c hc
    simp [serverFinalStatus, hc]
  · intro c hc
    simp [schedFinalStatus, hc]
  · intro c
    simp [schedFinalStatus]

/-- Witness for the amended C3 at concrete exit codes. -/
theorem C3_amended_witness :
    serverFinalStatus (some 1) = .failed ∧ schedFinalStatus false none = .failed ∧
    schedFinalStatus true (some 0) = .failed := by
  refine ⟨C3_amended_exit_disposition_mapping.2.2.1 1 (by decide),
    C3_amended_exit_disposition_mapping.2.2.2.2.1 none (by decide),
    C3_amended_exit_disposition_mapping.2.2.2.2.2 (some 0)⟩

/-! ## POST /api/scrape/stop and the active-scraper registry (server.js) -/

/-- What the single-mission stop endpoint replies. -/
inductive StopResponse where
  | stoppedOk
  | notFoundError
  | forbiddenError
  deriving DecidableEq, Repr

/-- The activeFacebookScrapers map after the close handler finalizes a
mission: the entry for that mission id is deleted. -/
def serverCloseRegistry (registry : List String) (missionId : String) :
    List String :=
  registry.filter (fun x => x != missionId)

/-- POST /api/scrape/stop with a missionId: replies 404 when the id is not
in the active registry, 403 when the stored mission exists and belongs to a
different owner, and otherwise stops the scraper (which writes status
stopped, a mutation).  missionDoc is the Mission.findById result: none when
no document exists, some owner otherwise (owner itself optional, and a JS
strict comparison of a missing userId against the requester is unequal).
The second component records whether any mission state was mutated. -/
def stopScrapeSingle (registry : List String) (missionDoc : Option (Option String))
    (missionId userId : String) : StopResponse × Bool :=
  if registry.contains missionId = false then (.notFoundError, false)
  else
    match missionDoc with
    | some owner =>
        if owner ≠ some userId then (.forbiddenError, false)
        else (.stoppedOk, true)
    | none => (.stoppedOk, true)

theorem contains_serverCloseRegistry_self (registry : List String) (missionId : String) :
    (serverCloseRegistry registry missionId).contains missionId = false := by
  have hmem : missionId ∉ serverCloseRegistry registry missionId := by
    intro hmem
    have h2 := (List.mem_filter.mp hmem).2
    simp [bne] at h2
  cases hc : (serverCloseRegistry registry missionId).contains missionId
  · rfl
  · exact absurd (List.elem_iff.mp hc) hmem

/-- C6 counterexample: a mission that finished (the close handler gave it a
terminal status and deleted it from the registry) is rejected by Stop with
the not-found error, so Stop on an already-terminal mission is reported as
an error rather than succeeding as a no-op. -/
theorem C6_counterexample :
    (serverCloseFinalize newMission (some 0) 99).status = .completed ∧
    serverCloseRegistry ["m1"] "m1" = [] ∧
    stopScrapeSingle (serverCloseRegistry ["m1"] "m1") (some (some "u1")) "m1" "u1" =
      (.notFoundError, false) ∧
    StopResponse.notFoundError ≠ StopResponse.stoppedOk := by
  refine ⟨rfl, by decide, by decide, by decide⟩

/-- C6 amended: the close handler removes a finalized mission from the
active registry, and Stop on any mission that is not in the registry (as
every already-terminal mission is) is rejected with the 404 not-found error
and mutates no state. -/
theorem C6_amended_stop_terminal_is_error
    (registry : List String) (missionDoc : Option (Option String))
    (missionId userId : String)
    (h : registry.contains missionId = false) :
    stopScrapeSingle registry missionDoc missionId userId = (.notFoundError, false) ∧
    (∀ reg id, (serverCloseRegistry reg id).contains id = false) := by
  refine ⟨?_, contains_serverCloseRegistry_self⟩
  unfold stopScrapeSingle
  rw [if_pos h]

/-- Witness for the amended C6 on a concrete emptied registry. -/
theorem C6_amended_witness :
    stopScrapeSingle [] (some (some "u1")) "m1" "u1" = (.notFoundError, false) := by
  exact (C6_amended_stop_terminal_is_error [] (some (some "u1")) "m1" "u1" (by decide)).1

/-! ## The worker's progress lines (src/scraper.ts and db.ts console output) -/

/-- The console line saveAd itself prints: Save for a new record, Skip for
a duplicate. -/
def saveAdLog (saved : Bool) (advertiser : String) : String :=
  if saved then "[Save] New ad stored: " ++ advertiser
  else "[Skip] Ad already exists: " ++ advertiser

/-- The NEW AD progress tag line the save loop prints for each record that
saveAd accepted. -/
def newAdLine (executionId : String) (savedCount maxAds : Nat) (advertiser : String) : String :=
  "✅ [" ++ executionId ++ "] NEW AD [" ++ toString savedCount ++ "/" ++
    toString maxAds ++ "]: [" ++ advertiser ++ "]"

/-- The batch summary line printed after a batch that saved something. -/
def batchDoneLine (executionId : String) (batchNew dupTotal : Nat) : String :=
  "📊 [" ++ executionId ++ "] Batch done: +" ++ toString batchNew ++ " new, " ++
    toString dupTotal ++ " dupes total"

theorem applyLine_fields (m : MissionRec) (l : String) :
    (applyLine m l).newAds = m.newAds + (if strContains l "NEW AD" then 1 else 0) ∧
    (applyLine m l).adsFound = m.adsFound + (if strContains l "NEW AD" then 1 else 0) ∧
    (applyLine m l).duplicatesSkipped =
      m.duplicatesSkipped + (if strContains l "DUPLICATE" then 1 else 0) ∧
    (applyLine m l).adsProcessed = m.adsProcessed ∧
    (applyLine m l).status = m.status ∧
    (applyLine m l).endTime = m.endTime := by
  unfold applyLine
  by_cases h1 : strContains l "NEW AD" = true <;>
    by_cases h2 : strContains l "DUPLICATE" = true <;>
      simp [h1, h2]

/-- The incremental channel is pure accumulation: after consuming any list
of lines, each counter equals its initial value plus the number of lines
carrying the corresponding tag, and nothing else changed. -/
theorem processLines_counters (m : MissionRec) (lines : List String) :
    (processLines m lines).newAds = m.newAds + countTag lines "NEW AD" ∧
    (processLines m lines).adsFound = m.adsFound + countTag lines "NEW AD" ∧
    (processLines m lines).duplicatesSkipped =
      m.duplicatesSkipped + countTag lines "DUPLICATE" ∧
    (processLines m lines).adsProcessed = m.adsProcessed ∧
    (processLines m lines).status = m.status ∧
    (processLines m lines).endTime = m.endTime := by
  induction lines generalizing m with
  | nil => simp [processLines, countTag]
  | cons l rest ih =>
      have happ := applyLine_fields m l
      have hrest := ih (applyLine m l)
      simp only [processLines, List.foldl_cons] at hrest ⊢
      simp only [countTag, List.countP_cons] at *
      refine ⟨?_, ?_, ?_, ?_, ?_, ?_⟩
      · rw [hrest.1, happ.1]; by_cases h : strContains l "NEW AD" = true <;> simp [h] <;> omega
      · rw [hrest.2.1, happ.2.1]
        by_cases h : strContains l "NEW AD" = true <;> simp [h] <;> omega
      · rw [hrest.2.2.1, happ.2.2.1]
        by_cases h : strContains l "DUPLICATE" = true <;> simp [h] <;> omega
      · rw [hrest.2.2.2.1, happ.2.2.2.1]
      · rw [hrest.2.2.2.2.1, happ.2.2.2.2.1]
      · rw [hrest.2.2.2.2.2, happ.2.2.2.2.2]

/-- C4 counterexample: a worker emits exactly one NEW AD tag line and a
trailing summary under-reporting saved = 0.  In the scheduled path the
close handler overwrites newAds with the summary value, so the final
mission newAds is 0, not the claimed max of both channels (1). -/
theorem C4_counterexample :
    countTag [newAdLine "job_1" 1 10 "Acme"] "NEW AD" = 1 ∧
    (schedCloseUpdate (schedStdoutUpdate newMission (newAdLine "job_1" 1 10 "Acme"))
        (some { found := 0, saved := 0, duplicates := 0, processed := 0 })
        false (some 0) 7).newAds = 0 ∧
    (0 : Nat) ≠ 1 := by
  refine ⟨by decide, by decide, by decide⟩

/-! ## The save loop of performEnhancedScraping (src/scraper.ts) -/

/-- One extracted card as returned by extractAllCardsInBrowser. -/
structure AdInput where
  advertiser : String
  description : String
  phone : Option String
  deriving DecidableEq, Repr

/-- The worker's stats object (errorCount, memoryCleanups and
lastProgressTime are bookkeeping that no claim touches and are omitted). -/
structure ScrapeStats where
  savedCount : Nat
  duplicateCount : Nat
  processedCount : Nat
  scrollAttempts : Nat
  batchesProcessed : Nat
  deriving DecidableEq, Repr

/-- The save loop over one extracted batch: stops early once savedCount
reaches maxAds; otherwise calls saveAd (whose own Save or Skip console line
reaches stdout first), prints the NEW AD tag line for an accepted record,
and counts processed, saved and duplicate records.  Returns the final
stats, the store, the emitted stdout lines in order, and batchNew. -/
def saveBatch (executionId keyword : String) (maxAds : Nat) (userId : Option String) :
    ScrapeStats → List AdRecord → List AdInput →
      ScrapeStats × List AdRecord × List String × Nat
  | stats, db, [] => (stats, db, [], 0)
  | stats, db, ad :: rest =>
      if maxAds ≤ stats.savedCount then (stats, db, [], 0)
      else
        match saveAd db ad.advertiser ad.description keyword ad.phone none none userId with
        | (true, db2) =>
            let stats2 := { stats with savedCount := stats.savedCount + 1,
                                       processedCount := stats.processedCount + 1 }
            let r := saveBatch executionId keyword maxAds userId stats2 db2 rest
            (r.1, r.2.1,
              saveAdLog true ad.advertiser ::
                newAdLine executionId stats2.savedCount maxAds ad.advertiser :: r.2.2.1,
              r.2.2.2 + 1)
        | (false, db2) =>
            let stats2 := { stats with duplicateCount := stats.duplicateCount + 1,
                                       processedCount := stats.processedCount + 1 }
            let r := saveBatch executionId keyword maxAds userId stats2 db2 rest
            (r.1, r.2.1, saveAdLog false ad.advertiser :: r.2.2.1, r.2.2.2)

theorem startsWithList_append_self (p b : List Char) :
    startsWithList (p ++ b) p = true := by
  induction p with
  | nil => cases b <;> rfl
  | cons c t ih => simp [startsWithList, ih]

theorem containsList_cons_of_tail (c : Char) (t p : List Char)
    (h : containsList t p = true) : containsList (c :: t) p = true := by
  simp [containsList, h]

theorem containsList_append_right (a b p : List Char)
    (h : containsList b p = true) : containsList (a ++ b) p = true := by
  induction a with
  | nil => simpa using h
  | cons x xs ih => exact containsList_cons_of_tail x _ p ih

theorem containsList_self_append (c : Char) (t b : List Char) :
    containsList ((c :: t) ++ b) (c :: t) = true := by
  have h := startsWithList_append_self (c :: t) b
  simp only [containsList, Bool.or_eq_true]
  exact Or.inl h

/-- Every NEW AD progress line carries the NEW AD tag, whatever the
execution id, counts and advertiser are. -/
theorem strContains_newAdLine (e : String) (k m : Nat) (adv : String) :
    strContains (newAdLine e k m adv) "NEW AD" = true := by
  unfold strContains newAdLine
  simp only [String.data_append, List.append_assoc]
  apply containsList_append_right
  apply containsList_append_right
  show containsList (']' :: ' ' :: ("NEW AD".data ++
    (' ' :: '[' :: ((toString k).data ++ ("/".data ++ ((toString m).data ++
      ("]: [".data ++ (adv.data ++ "]".data)))))))) "NEW AD".data = true
  apply containsList_cons_of_tail
  apply containsList_cons_of_tail
  exact containsList_self_append 'N' _ _

theorem saveBatch_cons_stop (e kw : String) (maxAds : Nat) (userId : Option String)
    (stats : ScrapeStats) (db : List AdRecord) (ad : AdInput) (rest : List AdInput)
    (hmax : maxAds ≤ stats.savedCount) :
    saveBatch e kw maxAds userId stats db (ad :: rest) = (stats, db, [], 0) := by
  rw [saveBatch, if_pos hmax]

theorem saveBatch_cons_dup (e kw : String) (maxAds : Nat) (userId : Option String)
    (stats : ScrapeStats) (db : List AdRecord) (ad : AdInput) (rest : List AdInput)
    (db2 : List AdRecord) (hmax : ¬ maxAds ≤ stats.savedCount)
    (hfs : saveAd db ad.advertiser ad.description kw ad.phone none none userId =
      (false, db2)) :
    saveBatch e kw maxAds userId stats db (ad :: rest) =
      ((saveBatch e kw maxAds userId
          { stats with duplicateCount := stats.duplicateCount + 1,
                       processedCount := stats.processedCount + 1 } db2 rest).1,
       (saveBatch e kw maxAds userId
          { stats with duplicateCount := stats.duplicateCount + 1,
                       processedCount := stats.processedCount + 1 } db2 rest).2.1,
       saveAdLog false ad.advertiser ::
         (saveBatch e kw maxAds userId
            { stats with duplicateCount := stats.duplicateCount + 1,
                         processedCount := stats.processedCount + 1 } db2 rest).2.2.1,
       (saveBatch e kw maxAds userId
          { stats with duplicateCount := stats.duplicateCount + 1,
                       processedCount := stats.processedCount + 1 } db2 rest).2.2.2) := by
  rw [saveBatch, if_neg hmax, hfs]

theorem saveBatch_cons_new (e kw : String) (maxAds : Nat) (userId : Option String)
    (stats : ScrapeStats) (db : List AdRecord) (ad : AdInput) (rest : List AdInput)
    (db2 : List AdRecord) (hmax : ¬ maxAds ≤ stats.savedCount)
    (hfs : saveAd db ad.advertiser ad.description kw ad.phone none none userId =
      (true, db2)) :
    saveBatch e kw maxAds userId stats db (ad :: rest) =
      ((saveBatch e kw maxAds userId
          { stats with savedCount := stats.savedCount + 1,
                       processedCount := stats.processedCount + 1 } db2 rest).1,
       (saveBatch e kw maxAds userId
          { stats with savedCount := stats.savedCount + 1,
                       processedCount := stats.processedCount + 1 } db2 rest).2.1,
       saveAdLog true ad.advertiser ::
         newAdLine e (stats.savedCount + 1) maxAds ad.advertiser ::
         (saveBatch e kw maxAds userId
            { stats with savedCount := stats.savedCount + 1,
                         processedCount := stats.processedCount + 1 } db2 rest).2.2.1,
       (saveBatch e kw maxAds userId
          { stats with savedCount := stats.savedCount + 1,
                       processedCount := stats.processedCount + 1 } db2 rest).2.2.2 + 1) := by
  rw [saveBatch, if_neg hmax, hfs]

/-- Core counting fact about one save-loop batch: the emitted lines carry
exactly one NEW AD tag per accepted record and no DUPLICATE tag at all,
given that the advertiser strings do not smuggle either tag into the Save
and Skip lines nor DUPLICATE into a NEW AD line. -/
theorem saveBatch_tags (executionId keyword : String) (maxAds : Nat)
    (userId : Option String) (ads : List AdInput) :
    ∀ (stats : ScrapeStats) (db : List AdRecord),
    (∀ ad ∈ ads, strContains (saveAdLog true ad.advertiser) "NEW AD" = false ∧
        strContains (saveAdLog false ad.advertiser) "NEW AD" = false ∧
        strContains (saveAdLog true ad.advertiser) "DUPLICATE" = false ∧
        strContains (saveAdLog false ad.advertiser) "DUPLICATE" = false) →
    (∀ ad ∈ ads, ∀ k, k ≤ stats.savedCount + ads.length →
        strContains (newAdLine executionId k maxAds ad.advertiser) "DUPLICATE" = false) →
    countTag (saveBatch executionId keyword maxAds userId stats db ads).2.2.1 "NEW AD" =
      (saveBatch executionId keyword maxAds userId stats db ads).2.2.2 ∧
    (saveBatch executionId keyword maxAds userId stats db ads).1.savedCount =
      stats.savedCount + (saveBatch executionId keyword maxAds userId stats db ads).2.2.2 ∧
    countTag (saveBatch executionId keyword maxAds userId stats db ads).2.2.1
      "DUPLICATE" = 0 := by
  induction ads with
  | nil =>
      intro stats db _ _
      simp [saveBatch, countTag]
  | cons ad rest ih =>
      intro stats db hsave hnew
      have hsaveAd := hsave ad (List.mem_cons_self ad rest)
      have hsaveRest := fun a ha => hsave a (List.mem_cons_of_mem ad ha)
      by_cases hmax : maxAds ≤ stats.savedCount
      · rw [saveBatch_cons_stop executionId keyword maxAds userId stats db ad rest hmax]
        simp [countTag]
      · cases hfs : saveAd db ad.advertiser ad.description keyword ad.phone
            none none userId with
        | mk saved db2 =>
            cases saved
            · -- duplicate path
              have hnewRest : ∀ a ∈ rest, ∀ k,
                  k ≤ stats.savedCount + rest.length →
                  strContains (newAdLine executionId k maxAds a.advertiser)
                    "DUPLICATE" = false := by
                intro a ha k hk
                refine hnew a (List.mem_cons_of_mem ad ha) k ?_
                simp only [List.length_cons]
                omega
              have hrec := ih
                { stats with duplicateCount := stats.duplicateCount + 1,
                             processedCount := stats.processedCount + 1 } db2
                hsaveRest hnewRest
              rw [saveBatch_cons_dup executionId keyword maxAds userId stats db
                ad rest db2 hmax hfs]
              simp only [countTag, List.countP_cons] at hrec ⊢
              refine ⟨?_, ?_, ?_⟩
              · rw [hsaveAd.2.1]; simpa using hrec.1
              · simpa using hrec.2.1
              · rw [hsaveAd.2.2.2]; simpa using hrec.2.2
            · -- new-record path
              have hnewRest : ∀ a ∈ rest, ∀ k,
                  k ≤ stats.savedCount + 1 + rest.length →
                  strContains (newAdLine executionId k maxAds a.advertiser)
                    "DUPLICATE" = false := by
                intro a ha k hk
                refine hnew a (List.mem_cons_of_mem ad ha) k ?_
                simp only [List.length_cons]
                omega
              have hrec := ih
                { stats with savedCount := stats.savedCount + 1,
                             processedCount := stats.processedCount + 1 } db2
                hsaveRest hnewRest
              rw [saveBatch_cons_new executionId keyword maxAds userId stats db
                ad rest db2 hmax hfs]
              simp only [countTag, List.countP_cons] at hrec ⊢
              have htag := strContains_newAdLine executionId (stats.savedCount + 1)
                maxAds ad.advertiser
              have hdup1 : strContains
                  (newAdLine executionId (stats.savedCount + 1) maxAds ad.advertiser)
                  "DUPLICATE" = false := by
                refine hnew ad (List.mem_cons_self ad rest) (stats.savedCount + 1) ?_
                simp only [List.length_cons]
                omega
              refine ⟨?_, ?_, ?_⟩
              · rw [hsaveAd.1, htag]
                have h1 := hrec.1
                simp only [Bool.false_eq_true, if_false] at *
                simp only [if_pos] at *
                omega
              · have h21 := hrec.2.1
                simp only [ScrapeStats.savedCount] at h21
                omega
              · rw [hsaveAd.2.2.1, hdup1]
                have h22 := hrec.2.2
                simp only [Bool.false_eq_true, if_false] at *
                omega

/-- C5 counterexample: a worker run that skips one duplicate emits no line
carrying the DUPLICATE tag (only the untagged Skip line from saveAd), so
the supervisor applies zero increments to duplicatesSkipped for a run with
one skipped duplicate. -/
theorem C5_counterexample :
    (saveBatch "job_1" "shoes" 10 (some "u1") ⟨0, 0, 0, 0, 0⟩
        [mkAd (some "u1") "Acme" "best shoes" "shoes" none none none]
        [⟨"Acme", "best shoes", none⟩]).1.duplicateCount = 1 ∧
    countTag (saveBatch "job_1" "shoes" 10 (some "u1") ⟨0, 0, 0, 0, 0⟩
        [mkAd (some "u1") "Acme" "best shoes" "shoes" none none none]
        [⟨"Acme", "best shoes", none⟩]).2.2.1 "DUPLICATE" = 0 ∧
    (processLines newMission
        (saveBatch "job_1" "shoes" 10 (some "u1") ⟨0, 0, 0, 0, 0⟩
          [mkAd (some "u1") "Acme" "best shoes" "shoes" none none none]
          [⟨"Acme", "best shoes", none⟩]).2.2.1).duplicatesSkipped = 0 ∧
    (1 : Nat) ≠ 0 := by
  refine ⟨by decide, by decide, by decide, by decide⟩

/-- C5 amended: the worker emits a distinct greppable NEW AD line for every
newly saved record and the supervisor applies exactly one increment pair
(newAds, adsFound) per such line; but the worker emits no per-duplicate tag
line at all, so the DUPLICATE branch of the supervisor never fires and
duplicatesSkipped receives no stream increments (its persisted value comes
from the worker's final mission update instead). -/
theorem C5_amended_progress_tags (executionId keyword : String) (maxAds : Nat)
    (userId : Option String) (stats : ScrapeStats) (db : List AdRecord)
    (ads : List AdInput) (m : MissionRec)
    (hsave : ∀ ad ∈ ads,
        strContains (saveAdLog true ad.advertiser) "NEW AD" = false ∧
        strContains (saveAdLog false ad.advertiser) "NEW AD" = false ∧
        strContains (saveAdLog true ad.advertiser) "DUPLICATE" = false ∧
        strContains (saveAdLog false ad.advertiser) "DUPLICATE" = false)
    (hnew : ∀ ad ∈ ads, ∀ k, k ≤ stats.savedCount + ads.length →
        strContains (newAdLine executionId k maxAds ad.advertiser) "DUPLICATE" = false) :
    countTag (saveBatch executionId keyword maxAds userId stats db ads).2.2.1 "NEW AD" =
      (saveBatch executionId keyword maxAds userId stats db ads).2.2.2 ∧
    (saveBatch executionId keyword maxAds userId stats db ads).1.savedCount =
      stats.savedCount + (saveBatch executionId keyword maxAds userId stats db ads).2.2.2 ∧
    countTag (saveBatch executionId keyword maxAds userId stats db ads).2.2.1
      "DUPLICATE" = 0 ∧
    (processLines m (saveBatch executionId keyword maxAds userId stats db ads).2.2.1).newAds =
      m.newAds + (saveBatch executionId keyword maxAds userId stats db ads).2.2.2 ∧
    (processLines m (saveBatch executionId keyword maxAds userId stats db ads).2.2.1).adsFound =
      m.adsFound + (saveBatch executionId keyword maxAds userId stats db ads).2.2.2 ∧
    (processLines m
        (saveBatch executionId keyword maxAds userId stats db ads).2.2.1).duplicatesSkipped =
      m.duplicatesSkipped := by
  have ht := saveBatch_tags executionId keyword maxAds userId ads stats db hsave hnew
  have hp := processLines_counters m
    (saveBatch executionId keyword maxAds userId stats db ads).2.2.1
  refine ⟨ht.1, ht.2.1, ht.2.2, ?_, ?_, ?_⟩
  · rw [hp.1, ht.1]
  · rw [hp.2.1, ht.1]
  · rw [hp.2.2.1, ht.2.2]
    omega

/-- Witness for the amended C5: one fresh record into an empty store. -/
theorem C5_amended_witness :
    countTag (saveBatch "job_1" "shoes" 10 (some "u1") ⟨0, 0, 0, 0, 0⟩ []
        [⟨"Acme", "best shoes", none⟩]).2.2.1 "NEW AD" =
      (saveBatch "job_1" "shoes" 10 (some "u1") ⟨0, 0, 0, 0, 0⟩ []
        [⟨"Acme", "best shoes", none⟩]).2.2.2 ∧
    (processLines newMission
        (saveBatch "job_1" "shoes" 10 (some "u1") ⟨0, 0, 0, 0, 0⟩ []
          [⟨"Acme", "best shoes", none⟩]).2.2.1).newAds =
      newMission.newAds +
        (saveBatch "job_1" "shoes" 10 (some "u1") ⟨0, 0, 0, 0, 0⟩ []
          [⟨"Acme", "best shoes", none⟩]).2.2.2 := by
  have h := C5_amended_progress_tags "job_1" "shoes" 10 (some "u1") ⟨0, 0, 0, 0, 0⟩ []
    [⟨"Acme", "best shoes", none⟩] newMission (by decide)
    (by
      intro ad had k hk
      simp only [List.mem_singleton] at had
      subst had
      simp only [ScrapeStats.savedCount, List.length_singleton] at hk
      interval_cases k <;> decide)
  exact ⟨h.1, h.2.2.2.1⟩

/-- C4 amended: reconciliation is per-path.  On-demand path: the persisted
record after the close handler carries exactly the incrementally counted
NEW AD lines (the summary max is computed only on an in-memory copy that
the close handler does not persist), so in the N-tag scenario the persisted
newAds is N regardless of the summary.  Scheduled path: a parsed summary
overwrites newAds with its saved value (no max against the incremental
channel); a malformed or missing summary leaves the counters untouched and
finalization still completes with endTime set. -/
theorem C4_amended_summary_reconciliation (init mem : MissionRec)
    (lines : List String) (s : Summary) (code : Option Int) (tmo : Bool) (now : Nat) :
    (serverCloseFinalize (processLines init lines) code now).newAds =
      init.newAds + countTag lines "NEW AD" ∧
    (serverCloseFinalize (processLines init lines) code now).adsFound =
      init.adsFound + countTag lines "NEW AD" ∧
    (checkFinalResult mem (some s)).newAds = max mem.newAds s.saved ∧
    (checkFinalResult mem (some s)).adsFound = max mem.adsFound s.saved ∧
    (schedCloseUpdate mem (some s) tmo code now).newAds = s.saved ∧
    (schedCloseUpdate mem none tmo code now).newAds = mem.newAds ∧
    (schedCloseUpdate mem none tmo code now).endTime = some now := by
  have hp := processLines_counters init lines
  refine ⟨?_, ?_, rfl, rfl, ?_, ?_, ?_⟩
  · simpa [serverCloseFinalize] using hp.1
  · simpa [serverCloseFinalize] using hp.2.1
  · cases tmo <;> simp [schedCloseUpdate]
  · cases tmo <;> simp [schedCloseUpdate]
  · cases tmo <;> simp [schedCloseUpdate]

/-! ## The performEnhancedScraping loop (src/scraper.ts)

The browser is external: each page interaction is answered by the next
event of an input trace.  getCardCount consumes a cards event,
extractAllCardsInBrowser an extracted event, scrollForMoreContent (with all
its internal jiggle and reset retries collapsed into one outcome) a
scrolled event, and the periodic getStats daily-quota read a daily event.
A trace that does not supply the expected event, or exhausted fuel, ends
the run with the state reached so far. -/

inductive PEvent where
  | cards (n : Nat)
  | extracted (ads : List AdInput)
  | scrolled (ok : Bool)
  | daily (n : Nat)
  deriving DecidableEq, Repr

/-- Loop-local counters of performEnhancedScraping. -/
structure LoopState where
  emptyBatchPatience : Nat
  scrollFailCount : Nat
  pageRefreshCount : Nat
  deriving DecidableEq, Repr

/-- scraperConfig defaults (no env overrides): batchProcessingSize. -/
def scraperBatchSize : Nat := 50

/-- scraperConfig defaults: refreshInterval (stability refresh cadence). -/
def scraperRefreshInterval : Nat := 3000

/-- scraperConfig defaults: dailyLimitCheckInterval. -/
def scraperDailyCheckInterval : Nat := 10

/-- scraperConfig defaults: maxScrollAttempts. -/
def scraperMaxScrollAttempts : Nat := 50000

def maxEmptyBatchPatience : Nat := 5
def maxScrollFails : Nat := 8
def maxPageRefreshes : Nat := 3

/-- The per-iteration scan log line. -/
def batchScanLine (e : String) (batchNo count processed saved maxAds : Nat) : String :=
  "🔄 [" ++ e ++ "] Batch " ++ toString batchNo ++ ": Found " ++ toString count ++
    " cards (processed " ++ toString processed ++ "), Saved: " ++
    toString saved ++ "/" ++ toString maxAds

/-- The first-empty-batch diagnostic (its JSON payload of page-derived data
is not modelled). -/
def diagLine (e : String) : String := "🔍 [" ++ e ++ "] PAGE DIAGNOSTIC"

def stuckRefreshLine (e : String) (n : Nat) : String :=
  "📡 [" ++ e ++ "] Stuck. Refresh " ++ toString n ++ "/3..."

def maxRefreshLine (e : String) : String :=
  "📡 [" ++ e ++ "] Max refreshes reached with 0 cards. Stopping."

def scrollFailLine (e : String) (n : Nat) : String :=
  "⏳ [" ++ e ++ "] Scroll attempt " ++ toString n ++ "/8 found no new content"

def scrollStuckLine (e : String) (n : Nat) : String :=
  "📡 [" ++ e ++ "] Scroll stuck. Full reload " ++ toString n ++ "/3..."

def exhaustedLine (e : String) : String :=
  "📡 [" ++ e ++ "] Exhausted all scroll + refresh attempts. Stopping."

def stabilityLine (e : String) (n : Nat) : String :=
  "🧹 [" ++ e ++ "] Stability refresh at " ++ toString n ++ " ads..."

/-- The periodic daily-limit gate at the end of an iteration: on a check
iteration it reads the store count (a daily event) and reports whether the
limit is reached; none aborts on a malformed trace. -/
def dailyGate (dailyLimit batchesProcessed : Nat) (events : List PEvent) :
    Option (Bool × List PEvent) :=
  if batchesProcessed % scraperDailyCheckInterval = 0 then
    match events with
    | PEvent.daily d :: evs => some (dailyLimit ≤ d, evs)
    | _ => none
  else some (false, events)

/-- The while loop of performEnhancedScraping, driven by an event trace and
structural fuel.  Memory-cleanup ticks and wait pauses are pure logging or
timing and are not modelled; everything that touches stats, the store or
stdout is.  Returns final stats, store and the stdout lines in order. -/
def runLoop (executionId keyword : String) (maxAds dailyLimit : Nat)
    (userId : Option String) :
    Nat → List PEvent → LoopState → ScrapeStats → List AdRecord → List String →
      ScrapeStats × List AdRecord × List String
  | 0, _, _, stats, db, acc => (stats, db, acc)
  | fuel + 1, events, ls, stats, db, acc =>
      if stats.savedCount < maxAds ∧ stats.scrollAttempts < scraperMaxScrollAttempts then
        match events with
        | PEvent.cards n :: evs =>
            let acc := acc ++ [batchScanLine executionId (stats.batchesProcessed + 1) n
              stats.processedCount stats.savedCount maxAds]
            if n = 0 then
              let acc := if stats.batchesProcessed = 0 ∧ ls.emptyBatchPatience = 0 then
                acc ++ [diagLine executionId] else acc
              if maxEmptyBatchPatience ≤ ls.emptyBatchPatience + 1 then
                if ls.pageRefreshCount < maxPageRefreshes then
                  runLoop executionId keyword maxAds dailyLimit userId fuel evs
                    { ls with emptyBatchPatience := 0,
                              pageRefreshCount := ls.pageRefreshCount + 1 }
                    { stats with processedCount := 0 } db
                    (acc ++ [stuckRefreshLine executionId (ls.pageRefreshCount + 1)])
                else (stats, db, acc ++ [maxRefreshLine executionId])
              else
                match evs with
                | PEvent.scrolled _ :: evs2 =>
                    runLoop executionId keyword maxAds dailyLimit userId fuel evs2
                      { ls with emptyBatchPatience := ls.emptyBatchPatience + 1 }
                      { stats with scrollAttempts := stats.scrollAttempts + 1 } db acc
                | _ => (stats, db, acc)
            else
              if n ≤ stats.processedCount then
                -- all visible cards processed: scroll for more
                match evs with
                | PEvent.scrolled ok :: evs2 =>
                    if ok then
                      runLoop executionId keyword maxAds dailyLimit userId fuel evs2
                        { ls with emptyBatchPatience := 0, scrollFailCount := 0 }
                        { stats with scrollAttempts := stats.scrollAttempts + 1 } db acc
                    else
                      if maxScrollFails ≤ ls.scrollFailCount + 1 then
                        if ls.pageRefreshCount < maxPageRefreshes then
                          runLoop executionId keyword maxAds dailyLimit userId fuel evs2
                            { ls with emptyBatchPatience := 0, scrollFailCount := 0,
                                      pageRefreshCount := ls.pageRefreshCount + 1 }
                            { stats with scrollAttempts := stats.scrollAttempts + 1,
                                         processedCount := 0 } db
                            (acc ++ [scrollFailLine executionId (ls.scrollFailCount + 1),
                              scrollStuckLine executionId (ls.pageRefreshCount + 1)])
                        else
                          ({ stats with scrollAttempts := stats.scrollAttempts + 1 }, db,
                            acc ++ [scrollFailLine executionId (ls.scrollFailCount + 1),
                              exhaustedLine executionId])
                      else
                        runLoop executionId keyword maxAds dailyLimit userId fuel evs2
                          { ls with emptyBatchPatience := 0,
                                    scrollFailCount := ls.scrollFailCount + 1 }
                          { stats with scrollAttempts := stats.scrollAttempts + 1 } db
                          (acc ++ [scrollFailLine executionId (ls.scrollFailCount + 1)])
                | _ => (stats, db, acc)
              else
                -- process one batch of up to batchProcessingSize cards
                match evs with
                | PEvent.extracted ads :: evs2 =>
                    let r := saveBatch executionId keyword maxAds userId stats db ads
                    let stats2 := { r.1 with batchesProcessed := r.1.batchesProcessed + 1 }
                    let acc2 := acc ++ r.2.2.1 ++
                      (if 0 < r.2.2.2 then
                        [batchDoneLine executionId r.2.2.2 stats2.duplicateCount] else [])
                    if 0 < r.2.2.2 ∧ 0 < stats2.savedCount ∧
                        stats2.savedCount % scraperRefreshInterval = 0 then
                      runLoop executionId keyword maxAds dailyLimit userId fuel evs2
                        { ls with emptyBatchPatience := 0, scrollFailCount := 0 }
                        { stats2 with processedCount := 0 } r.2.1
                        (acc2 ++ [stabilityLine executionId stats2.savedCount])
                    else
                      if stats2.savedCount < maxAds ∧ n ≤ stats2.processedCount then
                        match evs2 with
                        | PEvent.scrolled _ :: evs3 =>
                            match dailyGate dailyLimit stats2.batchesProcessed evs3 with
                            | none =>
                                ({ stats2 with scrollAttempts := stats2.scrollAttempts + 1 },
                                  r.2.1, acc2)
                            | some (true, _) =>
                                ({ stats2 with scrollAttempts := stats2.scrollAttempts + 1 },
                                  r.2.1, acc2)
                            | some (false, evs4) =>
                                runLoop executionId keyword maxAds dailyLimit userId fuel evs4
                                  { ls with emptyBatchPatience := 0, scrollFailCount := 0 }
                                  { stats2 with scrollAttempts := stats2.scrollAttempts + 1 }
                                  r.2.1 acc2
                        | _ => (stats2, r.2.1, acc2)
                      else
                        if maxAds ≤ stats2.savedCount then (stats2, r.2.1, acc2)
                        else
                          match dailyGate dailyLimit stats2.batchesProcessed evs2 with
                          | none => (stats2, r.2.1, acc2)
                          | some (true, _) => (stats2, r.2.1, acc2)
                          | some (false, evs3) =>
                              runLoop executionId keyword maxAds dailyLimit userId fuel evs3
                                { ls with emptyBatchPatience := 0, scrollFailCount := 0 }
                                stats2 r.2.1 acc2
                | _ => (stats, db, acc)
        | _ => (stats, db, acc)
      else (stats, db, acc)

/-- scrapeAds' final mission update on normal completion: it overwrites the
counters with the worker's own stats, adsFound and adsProcessed both with
processedCount. -/
def workerFinalUpdate (m : MissionRec) (stats : ScrapeStats) (now : Nat) : MissionRec :=
  { m with status := .completed, adsFound := stats.processedCount,
           newAds := stats.savedCount, duplicatesSkipped := stats.duplicateCount,
           adsProcessed := stats.processedCount, endTime := some now }

/-- savePartialResults on a failed run: like the final update but status
failed with the error recorded, and no adsProcessed write. -/
def savePartialUpdate (m : MissionRec) (stats : ScrapeStats) (errMsg : String)
    (now : Nat) : MissionRec :=
  { m with status := .failed, error := some errMsg, adsFound := stats.processedCount,
           newAds := stats.savedCount, duplicatesSkipped := stats.duplicateCount,
           endTime := some now }

/-- A run used to exhibit counter regression: one batch of five fresh
records, then the page never yields cards again. -/
def c7ads : List AdInput :=
  [⟨"Alpha", "alpha description one", none⟩,
   ⟨"Beta", "beta description two", none⟩,
   ⟨"Gamma", "gamma description three", none⟩,
   ⟨"Delta", "delta description four", none⟩,
   ⟨"Epsilon", "epsilon description five", none⟩]

/-- Five consecutive empty polls: four scrolls, then the patience threshold
triggers a page refresh (or the final stop). -/
def c7cycle : List PEvent :=
  [.cards 0, .scrolled false, .cards 0, .scrolled false, .cards 0,
   .scrolled false, .cards 0, .scrolled false, .cards 0]

def c7events : List PEvent :=
  [.cards 5, .extracted c7ads, .scrolled false] ++
    c7cycle ++ c7cycle ++ c7cycle ++ c7cycle

def c7run : ScrapeStats × List AdRecord × List String :=
  runLoop "job_1" "shoes" 10 1000 (some "u1") 30 c7events ⟨0, 0, 0⟩ ⟨0, 0, 0, 0, 0⟩ [] []

/-- C7 counterexample: in this run the worker saves five records (emitting
five NEW AD lines, so the supervisor's incremental channel brings the
persisted adsFound to 5), but the empty-poll page refreshes reset
processedCount to 0, and the worker's terminal mission update then stores
adsFound = processedCount = 0 — the persisted adsFound counter decreases
from 5 to 0, violating monotonicity. -/
theorem C7_counterexample :
    (processLines newMission c7run.2.2).adsFound = 5 ∧
    c7run.1.processedCount = 0 ∧
    c7run.1.savedCount = 5 ∧
    (workerFinalUpdate (processLines newMission c7run.2.2) c7run.1 99).adsFound = 0 ∧
    (0 : Nat) < 5 := by
  refine ⟨by decide, by decide, by decide, by decide, by decide⟩

/-- C7 amended: the supervisor's incremental line updates never decrease
any counter (each complete line only adds), but the worker's terminal
mission update overwrites adsFound and adsProcessed with its own
processedCount — which mid-run page reloads reset — and newAds,
duplicatesSkipped with savedCount and duplicateCount (which are never
reset).  Hence adsFound can decrease at the terminal write, while the
incremental channel itself is monotone. -/
theorem C7_amended_counter_monotonicity (m : MissionRec) (line : String)
    (lines : List String) (stats : ScrapeStats) (errMsg : String) (now : Nat) :
    m.newAds ≤ (applyLine m line).newAds ∧
    m.adsFound ≤ (applyLine m line).adsFound ∧
    m.duplicatesSkipped ≤ (applyLine m line).duplicatesSkipped ∧
    m.adsProcessed = (applyLine m line).adsProcessed ∧
    m.newAds ≤ (processLines m lines).newAds ∧
    m.adsFound ≤ (processLines m lines).adsFound ∧
    m.duplicatesSkipped ≤ (processLines m lines).duplicatesSkipped ∧
    (workerFinalUpdate m stats now).adsFound = stats.processedCount ∧
    (workerFinalUpdate m stats now).adsProcessed = stats.processedCount ∧
    (workerFinalUpdate m stats now).newAds = stats.savedCount ∧
    (workerFinalUpdate m stats now).duplicatesSkipped = stats.duplicateCount ∧
    (savePartialUpdate m stats errMsg now).adsFound = stats.processedCount ∧
    (savePartialUpdate m stats errMsg now).newAds = stats.savedCount := by
  have ha := applyLine_fields m line
  have hp := processLines_counters m lines
  refine ⟨?_, ?_, ?_, ?_, ?_, ?_, ?_, rfl, rfl, rfl, rfl, rfl, rfl⟩
  · rw [ha.1]; omega
  · rw [ha.2.1]; omega
  · rw [ha.2.2.1]; omega
  · rw [ha.2.2.2.1]
  · rw [hp.1]; omega
  · rw [hp.2.1]; omega
  · rw [hp.2.2.1]; omega

/-! ## Record-container discovery: the injected __findAdCards (src/scraper.ts)

A DOM element carries a unique identity (standing for JS reference
identity), its tag, the data-testid attribute, its class list, its own
text, its bounding-client-rect width and height, and its children.  The
document is a body tree; the search root is an element within it. -/

inductive Elem where
  | mk (eid : Nat) (tag : String) (testid : Option String) (classes : List String)
      (ownText : String) (w h : Nat) (kids : List Elem)

def Elem.eid : Elem → Nat
  | .mk i _ _ _ _ _ _ _ => i

def Elem.tag : Elem → String
  | .mk _ t _ _ _ _ _ _ => t

def Elem.testid : Elem → Option String
  | .mk _ _ a _ _ _ _ _ => a

def Elem.classes : Elem → List String
  | .mk _ _ _ c _ _ _ _ => c

def Elem.w : Elem → Nat
  | .mk _ _ _ _ _ x _ _ => x

def Elem.h : Elem → Nat
  | .mk _ _ _ _ _ _ y _ => y

def Elem.kids : Elem → List Elem
  | .mk _ _ _ _ _ _ _ k => k

mutual
/-- DOM textContent: the element's own text followed by its descendants'. -/
def textContent : Elem → String
  | .mk _ _ _ _ own _ _ kids => own ++ textContentList kids

def textContentList : List Elem → String
  | [] => ""
  | e :: rest => textContent e ++ textContentList rest
end

mutual
/-- The element followed by all its descendants in document order. -/
def descendantsSelf : Elem → List Elem
  | .mk i t a c o x y kids => .mk i t a c o x y kids :: descendantsList kids

def descendantsList : List Elem → List Elem
  | [] => []
  | e :: rest => descendantsSelf e ++ descendantsList rest
end

/-- querySelectorAll scope: the strict descendants of an element. -/
def descendants (e : Elem) : List Elem := descendantsList e.kids

mutual
/-- Every descendant paired with its ancestor chain, nearest ancestor
first; the chain passed in lists the ancestors of the current subtree. -/
def withChain : Elem → List Elem → List (Elem × List Elem)
  | .mk i t a c o x y kids, anc =>
      (.mk i t a c o x y kids, anc) ::
        withChainList kids (.mk i t a c o x y kids :: anc)

def withChainList : List Elem → List Elem → List (Elem × List Elem)
  | [], _ => []
  | e :: rest, anc => withChain e anc ++ withChainList rest anc
end

/-- JS text.trim().toLowerCase(). -/
def trimLower (s : String) : String :=
  String.mk ((trimList s.data).map Char.toLower)

/-- Strategy 1: the exact structural marker attribute. -/
def strat1 (root : Elem) : List Elem :=
  (descendants root).filter (fun e => e.testid == some "fb-ad-library-ad-card")

/-- The ancestor walk of strategy 2: up to 12 levels, stopping (empty)
at the search root or the body, returning the first ancestor whose
bounding box exceeds 200 by 100.  The source also checks that the found
ancestor has a parentElement; the walk stops at the search root first, so
the found ancestor is strictly inside it and always has one. -/
def walkUp : Nat → List Elem → Nat → Nat → Option Elem
  | 0, _, _, _ => none
  | _ + 1, [], _, _ => none
  | fuel + 1, p :: rest, rootId, bodyId =>
      if p.eid = rootId ∨ p.eid = bodyId then none
      else if 200 < p.w ∧ 100 < p.h then some p
      else walkUp fuel rest rootId bodyId

/-- Strategy 2: every a, span or div under the root whose visible text is
one of the detail-link phrases contributes the first sizeable ancestor from
a 12-level walk; ancestors are deduplicated by identity in scan order. -/
def strat2 (bodyId : Nat) (root : Elem) : List Elem :=
  ((withChainList root.kids [root]).foldl
    (fun (acc : List Elem × List Nat) p =>
      let el := p.1
      if (el.tag == "a" || el.tag == "span" || el.tag == "div") &&
          (trimLower (textContent el) == "see ad details" ||
           trimLower (textContent el) == "ad details" ||
           trimLower (textContent el) == "see summary details") then
        match walkUp 12 p.2 root.eid bodyId with
        | some parent =>
            if acc.2.contains parent.eid then acc
            else (acc.1 ++ [parent], parent.eid :: acc.2)
        | none => acc
      else acc)
    ([], [])).1

/-- Strategy 3: the obfuscated class names, scoped to the root and
filtered to containers with text longer than 50. -/
def strat3 (root : Elem) : List Elem :=
  ((descendants root).filter (fun e =>
      e.tag == "div" &&
        (e.classes.contains "xh8yej3" || e.classes.contains "x1plvlek"))).filter
    (fun c => 50 < (textContent c).length)

/-- A card-like child: contains a link, has text longer than 100 and a
height above 80. -/
def cardLike (child : Elem) : Bool :=
  (descendants child).any (fun e => e.tag == "a") &&
    100 < (textContent child).length && 80 < child.h

/-- Strategy 4 at one candidate parent: skip parents with fewer than 3 or
more than 200 children; accept when at least 3 children are card-like and
the card-like fraction strictly exceeds 0.6 (cardLikeCount divided by
children.length compared against the double 0.6 is exact at these
magnitudes, so the comparison is 3n < 5c); the returned record set is the
children filtered to those with a link and text longer than 100. -/
def strat4Choice (d : Elem) : Option (List Elem) :=
  let children := d.kids
  let n := children.length
  if n < 3 ∨ 200 < n then none
  else
    let c := (children.filter cardLike).length
    if 3 ≤ c ∧ 3 * n < 5 * c then
      some (children.filter (fun child =>
        (descendants child).any (fun e => e.tag == "a") &&
          100 < (textContent child).length))
    else none

/-- Strategy 4: scan every div of the whole document in document order and
return the first accepted parent's filtered children. -/
def strat4 (body : Elem) : List Elem :=
  (((descendantsSelf body).filter (fun e => e.tag == "div")).findSome? strat4Choice).getD []

/-- The injected __findAdCards: the four strategies in order, each tried
only when every earlier one came back empty, the class-name heuristic only
under a non-body root. -/
def findAdCards (body root : Elem) : List Elem :=
  let s1 := strat1 root
  if s1.isEmpty = false then s1
  else
    let s2 := strat2 body.eid root
    if s2.isEmpty = false then s2
    else
      if root.eid ≠ body.eid then
        let s3 := strat3 root
        if s3.isEmpty = false then s3
        else strat4 body
      else strat4 body

/-- The sibling-homogeneity acceptance exactly as the spec words it: 3 to
200 children, at least 3 card-like, and at least 60 percent card-like
(5c greater or equal 3n). -/
def specSiblingAccept (parent : Elem) : Bool :=
  let n := parent.kids.length
  let c := (parent.kids.filter cardLike).length
  decide (3 ≤ n) && decide (n ≤ 200) && decide (3 ≤ c) && decide (3 * n ≤ 5 * c)

def junk101 : String := String.mk (List.replicate 101 'a')

def c8link (i : Nat) : Elem := .mk i "a" none [] junk101 100 20 []

def c8card (i : Nat) : Elem := .mk i "div" none [] "" 300 100 [c8link (i + 1)]

def c8plain (i : Nat) : Elem := .mk i "div" none [] "" 300 10 []

/-- A results container with five children of which exactly three are
card-like: 60 percent exactly. -/
def c8parent : Elem :=
  .mk 1 "div" none [] "" 500 500 [c8card 2, c8card 4, c8card 6, c8plain 8, c8plain 9]

def c8body : Elem := .mk 0 "body" none [] "" 800 600 [c8parent]

/-- C8 counterexample: on this document the first three strategies find
nothing, the sibling-homogeneity parent has 5 children with exactly 3
card-like (exactly 60 percent), the spec's at-least-60-percent acceptance
holds, yet the code's strictly-greater-than-0.6 test rejects it and
__findAdCards returns the empty set. -/
theorem C8_counterexample :
    strat1 c8body = [] ∧
    strat2 c8body.eid c8body = [] ∧
    specSiblingAccept c8parent = true ∧
    (descendantsSelf c8body).filter (fun e => e.tag == "div") =
      [c8parent, c8card 2, c8card 4, c8card 6, c8plain 8, c8plain 9] ∧
    findAdCards c8body c8body = [] := by
  refine ⟨rfl, rfl, by decide, rfl, rfl⟩

/-- C8 amended: discovery evaluates the four strategies in the fixed order
and returns the first non-empty result, with the class-name heuristic
applied only under a non-body scope; the sibling-homogeneity strategy
accepts a parent exactly when it has between 3 and 200 children, at least 3
card-like children, and a card-like fraction strictly greater than 60
percent, and then returns the children filtered to those with a link and
text length above 100. -/
theorem C8_amended_discovery_order (body root : Elem) :
    (strat1 root ≠ [] → findAdCards body root = strat1 root) ∧
    (strat1 root = [] → strat2 body.eid root ≠ [] →
      findAdCards body root = strat2 body.eid root) ∧
    (strat1 root = [] → strat2 body.eid root = [] → root.eid ≠ body.eid →
      strat3 root ≠ [] → findAdCards body root = strat3 root) ∧
    (strat1 root = [] → strat2 body.eid root = [] →
      (root.eid = body.eid ∨ strat3 root = []) →
      findAdCards body root = strat4 body) ∧
    (∀ d r, strat4Choice d = some r ↔
      (3 ≤ d.kids.length ∧ d.kids.length ≤ 200 ∧
       3 ≤ (d.kids.filter cardLike).length ∧
       3 * d.kids.length < 5 * (d.kids.filter cardLike).length ∧
       r = d.kids.filter (fun child =>
         (descendants child).any (fun e => e.tag == "a") &&
           100 < (textContent child).length))) := by
  refine ⟨?_, ?_, ?_, ?_, ?_⟩
  · intro h1
    have h1' : (strat1 root).isEmpty = false := by
      cases he : strat1 root with
      | nil => exact absurd he h1
      | cons a t => rfl
    simp only [findAdCards]
    rw [h1']
    simp
  · intro h1 h2
    have h1' : (strat1 root).isEmpty = true := by rw [h1]; rfl
    have h2' : (strat2 body.eid root).isEmpty = false := by
      cases he : strat2 body.eid root with
      | nil => exact absurd he h2
      | cons a t => rfl
    simp only [findAdCards]
    rw [h1', h2']
    simp
  · intro h1 h2 hroot h3
    have h1' : (strat1 root).isEmpty = true := by rw [h1]; rfl
    have h2' : (strat2 body.eid root).isEmpty = true := by rw [h2]; rfl
    have h3' : (strat3 root).isEmpty = false := by
      cases he : strat3 root with
      | nil => exact absurd he h3
      | cons a t => rfl
    simp only [findAdCards]
    rw [h1', h2', if_pos hroot, h3']
    simp
  · intro h1 h2 hcase
    have h1' : (strat1 root).isEmpty = true := by rw [h1]; rfl
    have h2' : (strat2 body.eid root).isEmpty = true := by rw [h2]; rfl
    simp only [findAdCards]
    rw [h1', h2']
    rcases hcase with hroot | h3
    · rw [if_neg (show ¬root.eid ≠ body.eid from fun hc => hc hroot)]
      simp
    · by_cases hne : root.eid ≠ body.eid
      · have h3' : (strat3 root).isEmpty = true := by rw [h3]; rfl
        rw [if_pos hne, h3']
        simp
      · rw [if_neg hne]
        simp
  · intro d r
    unfold strat4Choice
    constructor
    · intro h
      by_cases hn : d.kids.length < 3 ∨ 200 < d.kids.length
      · rw [if_pos hn] at h
        exact absurd h (by simp)
      · rw [if_neg hn] at h
        push_neg at hn
        by_cases hc : 3 ≤ (d.kids.filter cardLike).length ∧
            3 * d.kids.length < 5 * (d.kids.filter cardLike).length
        · rw [if_pos hc] at h
          refine ⟨hn.1, hn.2, hc.1, hc.2, ?_⟩
          exact (Option.some_inj.mp h).symm
        · rw [if_neg hc] at h
          exact absurd h (by simp)
    · intro ⟨hn1, hn2, hc1, hc2, hr⟩
      rw [if_neg (by omega), if_pos ⟨hc1, hc2⟩, hr]

/-- Witness for the amended C8: a document whose root holds one marker
card; strategy 1 is non-empty and wins. -/
theorem C8_amended_witness :
    findAdCards (.mk 0 "body" none [] "" 800 600
        [.mk 1 "div" (some "fb-ad-library-ad-card") [] "x" 300 200 []])
      (.mk 0 "body" none [] "" 800 600
        [.mk 1 "div" (some "fb-ad-library-ad-card") [] "x" 300 200 []]) =
    strat1 (.mk 0 "body" none [] "" 800 600
        [.mk 1 "div" (some "fb-ad-library-ad-card") [] "x" 300 200 []]) := by
  refine (C8_amended_discovery_order _ _).1 ?_
  have he : strat1 (.mk 0 "body" none [] "" 800 600
      [.mk 1 "div" (some "fb-ad-library-ad-card") [] "x" 300 200 []]) =
      [.mk 1 "div" (some "fb-ad-library-ad-card") [] "x" 300 200 []] := rfl
  rw [he]
  exact List.cons_ne_nil _ _

end FB
